import Mathlib

/-!
Shallow embedding of the GuitarFlow data-collection core:
the metadata ledger (collector_database.py), the image download manager
(image_download_manager.py) and the paginated search collector
(pixabay_collector.py). Python ints are modelled as Int/Nat, timestamps as
Nat (ISO-8601 strings compare chronologically), SQL rows as a Lean list in
rowid order, and effects (HTTP, sleeps, file writes) as explicit events.
-/

namespace GuitarFlow

/-- Image origin service, from ImageSource in collector_models_enums.py. -/
inductive ImageSource
  | PIXABAY
  | UNSPLASH
  | PEXELS
deriving DecidableEq

/-- Image classification tag, from ImageLabel in collector_models_enums.py. -/
inductive ImageLabel
  | ELECTRIC
  | ACOUSTIC
deriving DecidableEq

/-- One image metadata record, from ImageMetadata in collector_models_enums.py
and the image_metadata table columns of collector_database.py. -/
structure ImageMetadata where
  source : ImageSource
  label : ImageLabel
  image_id : String
  image_url : String
  search_query : String
  searched_at : Nat
  license : Option String
  width : Option Int
  height : Option Int
  filesize : Option Int
  is_downloaded : Bool
  downloaded_at : Option Nat
deriving DecidableEq

/-- The inserted/skipped counters returned by insert_batch. -/
structure BatchStats where
  inserted : Nat
  skipped : Nat
deriving DecidableEq

/-- Whether some row already carries this image_id. The schema declares
image_id TEXT NOT NULL UNIQUE, so an INSERT of a matching id raises
IntegrityError. -/
def hasImageId (rows : List ImageMetadata) (id : String) : Bool :=
  rows.any (fun r => r.image_id == id)

/-- ImageMetadataDBManager.insert_batch: inserts records one at a time inside
one transaction; an IntegrityError on a record is caught and counted as a
skip, and the loop continues with the rest of the batch. -/
def insert_batch (rows : List ImageMetadata) (ms : List ImageMetadata) :
    List ImageMetadata × BatchStats :=
  match ms with
  | [] => (rows, ⟨0, 0⟩)
  | m :: rest =>
    if hasImageId rows m.image_id then
      let r := insert_batch rows rest
      (r.1, ⟨r.2.inserted, r.2.skipped + 1⟩)
    else
      let r := insert_batch (rows ++ [m]) rest
      (r.1, ⟨r.2.inserted + 1, r.2.skipped⟩)

/-- SQL COALESCE of a bound parameter with the stored column value. -/
def coalesce (p old : Option Int) : Option Int :=
  match p with
  | some v => some v
  | none => old

/-- The SET clause of ImageMetadataDBManager.update_download_status applied to
one matching row: is_downloaded = 1, downloaded_at = now, and each of
width/height/filesize COALESCEd with its stored value. -/
def applyDownloadUpdate (now : Nat) (w h fs : Option Int) (r : ImageMetadata) :
    ImageMetadata :=
  { r with
    is_downloaded := true
    downloaded_at := some now
    width := coalesce w r.width
    height := coalesce h r.height
    filesize := coalesce fs r.filesize }

/-- ImageMetadataDBManager.update_download_status: UPDATE every row whose
image_id matches (at most one, by uniqueness), returning rowcount > 0. -/
def update_download_status (rows : List ImageMetadata) (image_id : String)
    (w h fs : Option Int) (now : Nat) : List ImageMetadata × Bool :=
  (rows.map (fun r =>
      if r.image_id == image_id then applyDownloadUpdate now w h fs r else r),
   hasImageId rows image_id)

/-- Insert a row into a list kept in descending searched_at order. -/
def insertDesc (r : ImageMetadata) : List ImageMetadata → List ImageMetadata
  | [] => [r]
  | x :: xs =>
    if r.searched_at ≤ x.searched_at then x :: insertDesc r xs
    else r :: x :: xs

/-- ORDER BY searched_at DESC, as an insertion sort. -/
def sortTimeDesc : List ImageMetadata → List ImageMetadata
  | [] => []
  | r :: rs => insertDesc r (sortTimeDesc rs)

/-- Boolean check that searched_at values are non-increasing front to back. -/
def sortedDesc : List ImageMetadata → Bool
  | [] => true
  | [_] => true
  | a :: b :: rest => decide (b.searched_at ≤ a.searched_at) && sortedDesc (b :: rest)

/-- The only failure mode of the modelled SELECT: the SQLite grammar allows an
OFFSET clause only after a LIMIT clause, so a query built with an OFFSET and
no LIMIT fails to parse (sqlite3.OperationalError). -/
inductive SqlError
  | offsetWithoutLimit
deriving DecidableEq

/-- The SELECT statement assembled by ImageMetadataDBManager.get_all: optional
source/label/is_downloaded filters, ORDER BY searched_at DESC, a LIMIT clause
exactly when limit is not None, and an OFFSET clause exactly when offset > 0. -/
structure SelectQuery where
  sourceFilter : Option ImageSource
  labelFilter : Option ImageLabel
  onlyNotDownloaded : Bool
  limitClause : Option Nat
  offsetClause : Option Nat
deriving DecidableEq

/-- Query construction in get_all (the WHERE/LIMIT/OFFSET string building). -/
def buildGetAllQuery (source : Option ImageSource) (label : Option ImageLabel)
    (limit : Option Nat) (offset : Nat) (only_not_downloaded : Bool) :
    SelectQuery :=
  { sourceFilter := source
    labelFilter := label
    onlyNotDownloaded := only_not_downloaded
    limitClause := limit
    offsetClause := if offset > 0 then some offset else none }

/-- WHERE-clause match for one row. -/
def rowMatches (q : SelectQuery) (r : ImageMetadata) : Bool :=
  (match q.sourceFilter with | some s => r.source == s | none => true) &&
  (match q.labelFilter with | some l => r.label == l | none => true) &&
  (!q.onlyNotDownloaded || !r.is_downloaded)

/-- The filtered, ordered result set of a query, before LIMIT/OFFSET. -/
def orderedRows (rows : List ImageMetadata) (q : SelectQuery) :
    List ImageMetadata :=
  sortTimeDesc (rows.filter (rowMatches q))

/-- SQLite evaluation of the assembled SELECT: parse error when OFFSET appears
without LIMIT, otherwise filter, sort descending, skip OFFSET rows, return at
most LIMIT rows. -/
def runSelect (rows : List ImageMetadata) (q : SelectQuery) :
    Except SqlError (List ImageMetadata) :=
  match q.limitClause, q.offsetClause with
  | none, some _ => Except.error SqlError.offsetWithoutLimit
  | lim, off =>
    let rs := orderedRows rows q
    let rs := match off with | some o => rs.drop o | none => rs
    let rs := match lim with | some n => rs.take n | none => rs
    Except.ok rs

/-- ImageMetadataDBManager.get_all. -/
def get_all (rows : List ImageMetadata) (source : Option ImageSource)
    (label : Option ImageLabel) (limit : Option Nat) (offset : Nat)
    (only_not_downloaded : Bool) : Except SqlError (List ImageMetadata) :=
  runSelect rows (buildGetAllQuery source label limit offset only_not_downloaded)

/-- ImageMetadataDBManager.get_pending_downloads: get_all restricted to rows
with is_downloaded = 0. -/
def get_pending_downloads (rows : List ImageMetadata) (limit : Nat)
    (offset : Nat) (source : Option ImageSource) (label : Option ImageLabel) :
    Except SqlError (List ImageMetadata) :=
  get_all rows source label (some limit) offset true

/-- A file on disk as the manager observes it: its byte size and the result of
decoding it with Image.open (none when the decode raises). -/
structure FileInfo where
  size : Int
  decode : Option (Int × Int)
deriving DecidableEq

/-- What one HTTP fetch attempt in _download_single_image can do: fail before
any body byte is written (transport error or timeout inside get, or
raise_for_status on a non-2xx response) with no file touched; raise while the
body is being streamed into the already opened file (iter_content or f.write),
which the blanket except turns into a plain False WITHOUT unlinking, so the
partially written file, described by the given FileInfo, stays at the
destination; succeed at the byte level but fail image verification (Image.open
raises), in which case the written file is deleted again; or fully succeed,
leaving a file that decodes with the given dimensions and has the given
size. -/
inductive FetchOutcome
  | httpError
  | midStreamError (file : FileInfo)
  | corrupt
  | ok (width height size : Int)
deriving DecidableEq

/-- The filesystem, as a map from paths to files. -/
def Disk : Type := String → Option FileInfo

/-- Point update of the filesystem map. -/
def updateDisk (d : Disk) (path : String) (fi : Option FileInfo) : Disk :=
  fun p => if p == path then fi else d p

/-- Observable side effects of the download manager, in order. -/
inductive Event
  | httpGet (url : String)
  | fileWrite (path : String)
  | fileDelete (path : String)
  | retrySleep (seconds : Nat)
  | rateLimitSleep
  | dbUpdate (image_id : String) (width height size : Option Int)
deriving DecidableEq

/-- Recogniser for HTTP fetch events. -/
def Event.isHttpGet : Event → Bool
  | .httpGet _ => true
  | _ => false

/-- Recogniser for the fixed 5s sleeps between retry attempts. -/
def Event.isRetrySleep : Event → Bool
  | .retrySleep _ => true
  | _ => false

/-- Recogniser for the jittered inter-record rate-limit sleeps. -/
def Event.isRateLimitSleep : Event → Bool
  | .rateLimitSleep => true
  | _ => false

/-- Recogniser for ledger update calls. -/
def Event.isDbUpdate : Event → Bool
  | .dbUpdate _ _ _ _ => true
  | _ => false

/-- Lowercase storage code of a source, source.value.lower() in Python. -/
def ImageSource.lower : ImageSource → String
  | .PIXABAY => ("pixabay")
  | .UNSPLASH => ("unsplash")
  | .PEXELS => ("pexels")

/-- Lowercase storage code of a label, label.value.lower() in Python. -/
def ImageLabel.lower : ImageLabel → String
  | .ELECTRIC => ("electric")
  | .ACOUSTIC => ("acoustic")

/-- ImageDownloadManager._get_filepath: the deterministic destination path
data_dir/raw/{source}/{label}/{source}_{image_id}.jpg. -/
def get_filepath (data_dir : String) (m : ImageMetadata) : String :=
  data_dir ++ ("/raw/") ++ m.source.lower ++ ("/") ++ m.label.lower ++ ("/") ++
    m.source.lower ++ ("_") ++ m.image_id ++ (".jpg")

/-- The retry loop of download_batch: attempts are numbered from the given
1-based index and at most fuel of them run (fuel starts at max_retries).
The last argument threads what currently sits at the destination path, since
the attempts themselves mutate it: an HTTP-level failure never opens the file
and leaves it as it was; a mid-stream failure leaves the partially written
file (the blanket except does not unlink); a decode failure leaves a fully
written file and then unlinks it; a success overwrites it (open with wb
truncates) and breaks out with the decoded dimensions and size. After a
failed attempt with retries remaining the manager sleeps 5 seconds. Returned
are the result, the emitted events, and the final file at the path. -/
def runAttempts (fetch : Nat → FetchOutcome) (url path : String) :
    Nat → Nat → Option FileInfo →
    Option (Int × Int × Int) × List Event × Option FileInfo
  | _, 0, file => (none, [], file)
  | attempt, fuel + 1, file =>
    match fetch attempt with
    | .ok w h sz =>
      (some (w, h, sz), [Event.httpGet url, Event.fileWrite path],
        some ⟨sz, some (w, h)⟩)
    | .httpError =>
      let tail := runAttempts fetch url path (attempt + 1) fuel file
      (tail.1,
        [Event.httpGet url] ++
          (if fuel > 0 then [Event.retrySleep 5] else []) ++ tail.2.1,
        tail.2.2)
    | .midStreamError fi =>
      let tail := runAttempts fetch url path (attempt + 1) fuel (some fi)
      (tail.1,
        [Event.httpGet url, Event.fileWrite path] ++
          (if fuel > 0 then [Event.retrySleep 5] else []) ++ tail.2.1,
        tail.2.2)
    | .corrupt =>
      let tail := runAttempts fetch url path (attempt + 1) fuel none
      (tail.1,
        [Event.httpGet url, Event.fileWrite path, Event.fileDelete path] ++
          (if fuel > 0 then [Event.retrySleep 5] else []) ++ tail.2.1,
        tail.2.2)

/-- Terminal state of one record in download_batch. -/
inductive RecordOutcome
  | success
  | failed
  | skipped
deriving DecidableEq

/-- Result of processing one record: its terminal state, the events it
emitted, and the ledger rows and disk afterwards. -/
structure StepResult where
  outcome : RecordOutcome
  events : List Event
  rows : List ImageMetadata
  disk : Disk

/-- One iteration of the download_batch loop body, without the trailing
inter-record sleep. In order: (1) skip records already marked downloaded when
skip_already_downloaded is set; (2) if the target file already exists, measure
it, try to decode it (falling back to absent dimensions when the decode
raises), reconcile the ledger via update_download_status and count the record
as skipped — the file is kept and the ledger is updated even when the decode
fails; (3) otherwise run the retry loop from an absent file, and on success
re-read the written file and update the ledger; on exhaustion leave the ledger
untouched, while the destination path keeps whatever the last attempt left
there (possibly a partially written file from a mid-stream failure). -/
def processRecord (data_dir : String) (max_retries : Nat)
    (skip_already_downloaded : Bool) (fetch : Nat → FetchOutcome) (now : Nat)
    (rows : List ImageMetadata) (disk : Disk) (m : ImageMetadata) :
    StepResult :=
  if skip_already_downloaded && m.is_downloaded then
    ⟨.skipped, [], rows, disk⟩
  else
    let path := get_filepath data_dir m
    match disk path with
    | some fi =>
      let w := fi.decode.map Prod.fst
      let h := fi.decode.map Prod.snd
      ⟨.skipped, [Event.dbUpdate m.image_id w h (some fi.size)],
        (update_download_status rows m.image_id w h (some fi.size) now).1, disk⟩
    | none =>
      match runAttempts fetch m.image_url path 1 max_retries none with
      | (some (w, h, sz), evs, _) =>
        ⟨.success, evs ++ [Event.dbUpdate m.image_id (some w) (some h) (some sz)],
          (update_download_status rows m.image_id (some w) (some h) (some sz) now).1,
          updateDisk disk path (some ⟨sz, some (w, h)⟩)⟩
      | (none, evs, file) =>
        ⟨.failed, evs, rows, updateDisk disk path file⟩

/-- One full iteration of the download_batch loop: processRecord followed by
the jittered inter-record sleep, which runs only when the record was neither
skipped (both skip paths continue past the sleep) nor the last of the batch. -/
def processWithSleep (data_dir : String) (max_retries : Nat)
    (skip_already_downloaded : Bool) (fetch : Nat → FetchOutcome) (now : Nat)
    (rows : List ImageMetadata) (disk : Disk) (m : ImageMetadata)
    (isLast : Bool) : StepResult :=
  let r := processRecord data_dir max_retries skip_already_downloaded fetch now
    rows disk m
  if r.outcome == .skipped || isLast then r
  else { r with events := r.events ++ [Event.rateLimitSleep] }

/-- The success/failed/skipped counters of DownloadResult. -/
structure DownloadResult where
  success : Nat
  failed : Nat
  skipped : Nat
deriving DecidableEq

/-- Bump the counter matching one record outcome. -/
def bumpResult (res : DownloadResult) : RecordOutcome → DownloadResult
  | .success => { res with success := res.success + 1 }
  | .failed => { res with failed := res.failed + 1 }
  | .skipped => { res with skipped := res.skipped + 1 }

/-- Everything download_batch produces: the event trace, the final ledger
rows and disk, and the returned counters. -/
structure BatchOutput where
  events : List Event
  rows : List ImageMetadata
  disk : Disk
  result : DownloadResult

/-- ImageDownloadManager.download_batch: process the records strictly in input
order, threading the ledger and the disk through, concatenating the event
traces and tallying the per-record outcomes. The network is modelled as a map
from URL and attempt number to the fetch outcome. -/
def download_batch (data_dir : String) (max_retries : Nat)
    (skip_already_downloaded : Bool) (net : String → Nat → FetchOutcome)
    (now : Nat) (rows : List ImageMetadata) (disk : Disk) :
    List ImageMetadata → BatchOutput
  | [] => ⟨[], rows, disk, ⟨0, 0, 0⟩⟩
  | m :: ms =>
    let r := processWithSleep data_dir max_retries skip_already_downloaded
      (net m.image_url) now rows disk m ms.isEmpty
    let rest := download_batch data_dir max_retries skip_already_downloaded
      net now r.rows r.disk ms
    ⟨r.events ++ rest.events, rest.rows, rest.disk,
      bumpResult rest.result r.outcome⟩

/-- The effective pending-queue limit in download_pending_from_db: the Python
expression limit if limit else 100, where both None and 0 are falsy. -/
def effectiveLimit : Option Nat → Nat
  | none => 100
  | some 0 => 100
  | some (n + 1) => n + 1

/-- ImageDownloadManager.download_pending_from_db: pull the pending queue
(capped by the effective limit) from the ledger and feed it to download_batch;
with an empty queue, return zero counters without downloading. -/
def download_pending_from_db (data_dir : String) (max_retries : Nat)
    (net : String → Nat → FetchOutcome) (now : Nat)
    (rows : List ImageMetadata) (disk : Disk) (limit : Option Nat)
    (source : Option ImageSource) (label : Option ImageLabel) :
    Except SqlError BatchOutput :=
  (get_pending_downloads rows (effectiveLimit limit) 0 source label).map
    (fun pending =>
      if pending.isEmpty then ⟨[], rows, disk, ⟨0, 0, 0⟩⟩
      else download_batch data_dir max_retries true net now rows disk pending)

/-- One well-formed hit object of the Pixabay JSON payload: the fields the
collector reads. id and largeImageURL are accessed with [] (a missing key
raises), the remaining three with .get (absent gives None). -/
structure PixHit where
  id : Int
  largeImageURL : String
  imageWidth : Option Int
  imageHeight : Option Int
  imageSize : Option Int
deriving DecidableEq

/-- A hit as it appears in the payload: either well formed or malformed
(missing id/largeImageURL, so converting it raises KeyError). -/
inductive HitParse
  | ok (h : PixHit)
  | malformed
deriving DecidableEq

/-- What requesting one page can produce: a request-level failure (network
error, non-2xx status via raise_for_status, unparseable JSON) or a payload
with a list of hits. -/
inductive PageResult
  | fetchError
  | payload (hits : List HitParse)
deriving DecidableEq

/-- The metadata record PixabayCollector.search builds per hit, from
ImageMetadata in collector_models.py (the variant with source_id/url). -/
structure PixMetadata where
  source : ImageSource
  label : ImageLabel
  source_id : String
  url : String
  search_query : String
  license : String
  downloaded_at : Nat
  width : Option Int
  height : Option Int
  filesize : Option Int
deriving DecidableEq

/-- Conversion of one well-formed hit, as in the body of the hit loop. -/
def hitToMetadata (query : String) (label : ImageLabel) (now : Nat)
    (h : PixHit) : PixMetadata :=
  { source := ImageSource.PIXABAY
    label := label
    source_id := toString h.id
    url := h.largeImageURL
    search_query := query
    license := ("Pixabay License")
    downloaded_at := now
    width := h.imageWidth
    height := h.imageHeight
    filesize := h.imageSize }

/-- The inner hit loop of search: before converting each hit, stop once the
accumulator holds max_results records; converting a malformed hit raises
KeyError, which the per-page try/except turns into an abort of the whole page
loop (second component true). -/
def accumulateHits (max_results : Nat) (query : String) (label : ImageLabel)
    (now : Nat) (acc : List PixMetadata) :
    List HitParse → List PixMetadata × Bool
  | [] => (acc, false)
  | h :: rest =>
    if max_results ≤ acc.length then (acc, false)
    else
      match h with
      | .malformed => (acc, true)
      | .ok hit =>
        accumulateHits max_results query label now
          (acc ++ [hitToMetadata query label now hit]) rest

/-- The page loop of PixabayCollector.search. fuel is the number of pages the
for-loop still covers (initially total_pages) and page the 1-based page
number. Each iteration requests its page; a fetch error or a malformed hit
breaks the loop keeping the accumulated records; otherwise the loop breaks
once max_results is reached or a short page signals exhaustion. Returns the
list of requested page numbers and the accumulated records. -/
def searchGo (pages : Nat → PageResult) (query : String) (label : ImageLabel)
    (now : Nat) (max_results per_page : Nat) :
    Nat → Nat → List PixMetadata → List Nat → List Nat × List PixMetadata
  | _, 0, acc, reqs => (reqs, acc)
  | page, fuel + 1, acc, reqs =>
    let reqs := reqs ++ [page]
    match pages page with
    | .fetchError => (reqs, acc)
    | .payload hits =>
      let step := accumulateHits max_results query label now acc hits
      if step.2 then (reqs, step.1)
      else if max_results ≤ step.1.length then (reqs, step.1)
      else if hits.length < per_page then (reqs, step.1)
      else searchGo pages query label now max_results per_page
        (page + 1) fuel step.1 reqs

/-- PixabayCollector.search: per_page is 200 (the API maximum) and
total_pages = ceil(max_results / per_page) computed as
(max_results + per_page - 1) // per_page; pages run from 1. -/
def search (pages : Nat → PageResult) (query : String) (label : ImageLabel)
    (now : Nat) (max_results : Nat) : List Nat × List PixMetadata :=
  searchGo pages query label now max_results 200 1
    ((max_results + 200 - 1) / 200) [] []

/-- Consecutive page numbers start, start+1, ..., start+n-1. -/
def pageSeq (start : Nat) : Nat → List Nat
  | 0 => []
  | n + 1 => start :: pageSeq (start + 1) n

/-! Helper lemmas about the ledger operations. -/

theorem hasImageId_append (xs ys : List ImageMetadata) (id : String) :
    hasImageId (xs ++ ys) id = (hasImageId xs id || hasImageId ys id) := by
  simp [hasImageId, List.any_append]

theorem hasImageId_of_mem {ms : List ImageMetadata} {m : ImageMetadata}
    (hm : m ∈ ms) : hasImageId ms m.image_id = true := by
  simp only [hasImageId, List.any_eq_true]
  exact ⟨m, hm, by simp⟩

theorem insert_batch_all_present (ms : List ImageMetadata) :
    ∀ rows : List ImageMetadata,
      (∀ m ∈ ms, hasImageId rows m.image_id = true) →
      insert_batch rows ms = (rows, ⟨0, ms.length⟩) := by
  induction ms with
  | nil => intro rows _; simp [insert_batch]
  | cons m rest ih =>
    intro rows hall
    have hm : hasImageId rows m.image_id = true := hall m (List.mem_cons_self m rest)
    have hrest := ih rows (fun x hx => hall x (List.mem_cons_of_mem m hx))
    simp [insert_batch, hm, hrest]

theorem insert_batch_cons_pos (rows : List ImageMetadata) (m : ImageMetadata)
    (rest : List ImageMetadata) (hm : hasImageId rows m.image_id = true) :
    insert_batch rows (m :: rest) =
      ((insert_batch rows rest).1,
       ⟨(insert_batch rows rest).2.inserted,
        (insert_batch rows rest).2.skipped + 1⟩) := by
  simp [insert_batch, hm]

theorem insert_batch_cons_neg (rows : List ImageMetadata) (m : ImageMetadata)
    (rest : List ImageMetadata) (hm : hasImageId rows m.image_id = false) :
    insert_batch rows (m :: rest) =
      ((insert_batch (rows ++ [m]) rest).1,
       ⟨(insert_batch (rows ++ [m]) rest).2.inserted + 1,
        (insert_batch (rows ++ [m]) rest).2.skipped⟩) := by
  simp [insert_batch, hm]

theorem insert_batch_all_fresh (ms : List ImageMetadata) :
    ∀ rows : List ImageMetadata,
      (ms.map (fun m => m.image_id)).Nodup →
      (∀ m ∈ ms, hasImageId rows m.image_id = false) →
      insert_batch rows ms = (rows ++ ms, ⟨ms.length, 0⟩) := by
  induction ms with
  | nil => intro rows _ _; simp [insert_batch]
  | cons m rest ih =>
    intro rows hnd hall
    have hm : hasImageId rows m.image_id = false := hall m (List.mem_cons_self m rest)
    rw [List.map_cons, List.nodup_cons] at hnd
    have hall' : ∀ x ∈ rest, hasImageId (rows ++ [m]) x.image_id = false := by
      intro x hx
      have hid : ¬ m.image_id = x.image_id := by
        intro he
        exact hnd.1 (he ▸ List.mem_map_of_mem (fun r => r.image_id) hx)
      have hsame : hasImageId [m] x.image_id = false := by
        simp [hasImageId, hid]
      rw [hasImageId_append, hall x (List.mem_cons_of_mem m hx), hsame]
      rfl
    have hrest := ih (rows ++ [m]) hnd.2 hall'
    rw [insert_batch_cons_neg rows m rest hm, hrest]
    simp [List.append_assoc]

theorem insert_batch_count (ms : List ImageMetadata) :
    ∀ rows : List ImageMetadata,
      (insert_batch rows ms).2.inserted + (insert_batch rows ms).2.skipped =
        ms.length := by
  induction ms with
  | nil => intro rows; simp [insert_batch]
  | cons m rest ih =>
    intro rows
    by_cases hm : hasImageId rows m.image_id = true
    · simp [insert_batch, hm]
      have := ih rows
      omega
    · simp only [Bool.not_eq_true] at hm
      simp [insert_batch, hm]
      have := ih (rows ++ [m])
      omega

theorem insert_batch_ids (ms : List ImageMetadata) :
    ∀ (rows : List ImageMetadata) (id : String),
      hasImageId (insert_batch rows ms).1 id =
        (hasImageId rows id || ms.any (fun x => x.image_id == id)) := by
  induction ms with
  | nil => intro rows id; simp [insert_batch]
  | cons m rest ih =>
    intro rows id
    by_cases hm : hasImageId rows m.image_id = true
    · rw [insert_batch_cons_pos rows m rest hm]
      rw [ih rows id]
      by_cases hb : (m.image_id == id) = true
      · have he : id = m.image_id := (eq_of_beq hb).symm
        have hrid : hasImageId rows id = true := he ▸ hm
        simp [hrid, hb, List.any_cons]
      · simp only [Bool.not_eq_true] at hb
        simp [List.any_cons, hb]
    · simp only [Bool.not_eq_true] at hm
      rw [insert_batch_cons_neg rows m rest hm]
      rw [ih (rows ++ [m]) id, hasImageId_append]
      simp [hasImageId, List.any_cons, Bool.or_assoc]

theorem insert_batch_append (ms ns : List ImageMetadata) :
    ∀ rows : List ImageMetadata,
      insert_batch rows (ms ++ ns) =
        ((insert_batch (insert_batch rows ms).1 ns).1,
         ⟨(insert_batch rows ms).2.inserted +
            (insert_batch (insert_batch rows ms).1 ns).2.inserted,
          (insert_batch rows ms).2.skipped +
            (insert_batch (insert_batch rows ms).1 ns).2.skipped⟩) := by
  induction ms with
  | nil => intro rows; simp [insert_batch]
  | cons m rest ih =>
    intro rows
    rw [List.cons_append]
    by_cases hm : hasImageId rows m.image_id = true
    · rw [insert_batch_cons_pos rows m (rest ++ ns) hm, ih rows,
        insert_batch_cons_pos rows m rest hm]
      simp only [Prod.mk.injEq, BatchStats.mk.injEq]
      exact ⟨trivial, trivial, by omega⟩
    · simp only [Bool.not_eq_true] at hm
      rw [insert_batch_cons_neg rows m (rest ++ ns) hm, ih (rows ++ [m]),
        insert_batch_cons_neg rows m rest hm]
      simp only [Prod.mk.injEq, BatchStats.mk.injEq]
      exact ⟨trivial, by omega, trivial⟩

/-! Concrete records used by counterexamples and witnesses. -/

/-- A pending PIXABAY record. -/
def recA : ImageMetadata :=
  { source := ImageSource.PIXABAY
    label := ImageLabel.ELECTRIC
    image_id := ("a1")
    image_url := ("ua")
    search_query := ("guitar")
    searched_at := 5
    license := none
    width := none
    height := none
    filesize := none
    is_downloaded := false
    downloaded_at := none }

/-- A second pending record, searched later than recA. -/
def recB : ImageMetadata :=
  { recA with image_id := ("b2"), image_url := ("ub"), searched_at := 9 }

/-- A PIXABAY record with external id x. -/
def recPix : ImageMetadata :=
  { recA with image_id := ("x"), image_url := ("ux") }

/-- An UNSPLASH record with the same external id x. -/
def recUns : ImageMetadata :=
  { recPix with source := ImageSource.UNSPLASH }

/-- A record whose height is already known to be 480. -/
def recH480 : ImageMetadata :=
  { recA with image_id := ("h1"), height := some 480 }

/-- recH480 after update_download_status with width 100 at time 9. -/
def recH480upd : ImageMetadata :=
  { recH480 with is_downloaded := true, downloaded_at := some 9, width := some 100 }

/-- Claim C2, counterexample: a batch containing the same fresh record twice.
Neither copy is present in the ledger when insert_batch is called, yet the
second copy collides with the first inside the shared transaction, so the
call returns inserted=1, skipped=1 instead of inserted=2, skipped=0. -/
theorem insert_batch_intra_batch_duplicate :
    hasImageId [] recA.image_id = false ∧
    (insert_batch [] [recA, recA]).2 = ⟨1, 1⟩ := by
  decide

/-- Claim C2 (amended): for every list of N records with pairwise distinct
identities, none of which is already present in the ledger, insert_batch
returns inserted=N, skipped=0 and appends the records, and calling it again
with the same list returns inserted=0, skipped=N leaving the ledger contents
unchanged. -/
theorem insert_batch_idempotent (rows ms : List ImageMetadata)
    (h1 : (ms.map (fun m => m.image_id)).Nodup)
    (h2 : ∀ m ∈ ms, hasImageId rows m.image_id = false) :
    insert_batch rows ms = (rows ++ ms, ⟨ms.length, 0⟩) ∧
    insert_batch (rows ++ ms) ms = (rows ++ ms, ⟨0, ms.length⟩) := by
  refine ⟨insert_batch_all_fresh ms rows h1 h2, ?_⟩
  refine insert_batch_all_present ms (rows ++ ms) ?_
  intro m hm
  rw [hasImageId_append, hasImageId_of_mem hm, Bool.or_true]

/-- Claim C2, witness: two distinct fresh records into an empty ledger. -/
theorem insert_batch_idempotent_witness :
    insert_batch [] [recA, recB] = ([recA, recB], ⟨2, 0⟩) ∧
    insert_batch [recA, recB] [recA, recB] = ([recA, recB], ⟨0, 2⟩) := by
  have h := insert_batch_idempotent [] [recA, recB] (by decide)
    (by intro m _; rfl)
  simpa using h

/-- Claim C3, counterexample: two records with the same external id but
different sources. The uniqueness constraint is on image_id alone, so the
second record is skipped even though its (source, external_id) pair does not
exist in the ledger — the claim says both are inserted. -/
theorem insert_batch_cross_source_duplicate_skipped :
    recPix.source ≠ recUns.source ∧ recPix.image_id = recUns.image_id ∧
    insert_batch [] [recPix, recUns] = ([recPix], ⟨1, 1⟩) := by
  decide

/-- Claim C3 (amended): a record appended to a batch is counted as skipped (a
no-op) exactly when its external id already exists in the ledger or earlier in
the batch, regardless of source, and counted as inserted otherwise; the
counters always partition the batch, and no uniqueness violation is surfaced
as an error (insert_batch is total and returns counts). -/
theorem insert_batch_skip_criterion (rows ms : List ImageMetadata)
    (m : ImageMetadata) :
    (insert_batch rows ms).2.inserted + (insert_batch rows ms).2.skipped =
      ms.length ∧
    insert_batch rows (ms ++ [m]) =
      (if hasImageId rows m.image_id ||
          ms.any (fun x => x.image_id == m.image_id) then
        ((insert_batch rows ms).1,
         ⟨(insert_batch rows ms).2.inserted,
          (insert_batch rows ms).2.skipped + 1⟩)
       else
        ((insert_batch rows ms).1 ++ [m],
         ⟨(insert_batch rows ms).2.inserted + 1,
          (insert_batch rows ms).2.skipped⟩)) := by
  refine ⟨insert_batch_count ms rows, ?_⟩
  rw [insert_batch_append ms [m] rows]
  by_cases hc : (hasImageId rows m.image_id ||
      ms.any (fun x => x.image_id == m.image_id)) = true
  · have hm : hasImageId (insert_batch rows ms).1 m.image_id = true := by
      rw [insert_batch_ids ms rows m.image_id]; exact hc
    rw [insert_batch_cons_pos _ m [] hm]
    simp [insert_batch, hc]
  · simp only [Bool.not_eq_true] at hc
    have hm : hasImageId (insert_batch rows ms).1 m.image_id = false := by
      rw [insert_batch_ids ms rows m.image_id]; exact hc
    rw [insert_batch_cons_neg _ m [] hm]
    simp [insert_batch, hc]

/-- Claim C4: update_download_status returns true exactly when a row with the
identity exists (false, without raising, otherwise), keeps the number of rows,
leaves non-matching rows untouched, and on the matching row sets
is_downloaded and downloaded_at, fills exactly the dimension fields supplied
as present, keeps the stored value of each field passed as absent, and leaves
every other column unchanged. -/
theorem update_download_status_spec (rows : List ImageMetadata) (id : String)
    (w h fs : Option Int) (now : Nat) :
    ((update_download_status rows id w h fs now).2 = true ↔
      ∃ r ∈ rows, r.image_id = id) ∧
    (update_download_status rows id w h fs now).1.length = rows.length ∧
    (∀ (i : Nat) (r r' : ImageMetadata), rows[i]? = some r →
      (update_download_status rows id w h fs now).1[i]? = some r' →
      (¬ r.image_id = id → r' = r) ∧
      (r.image_id = id →
        r'.is_downloaded = true ∧
        r'.downloaded_at = some now ∧
        r'.width = (match w with | some v => some v | none => r.width) ∧
        r'.height = (match h with | some v => some v | none => r.height) ∧
        r'.filesize = (match fs with | some v => some v | none => r.filesize) ∧
        r'.source = r.source ∧ r'.label = r.label ∧
        r'.image_id = r.image_id ∧ r'.image_url = r.image_url ∧
        r'.search_query = r.search_query ∧ r'.searched_at = r.searched_at ∧
        r'.license = r.license)) := by
  refine ⟨?_, by simp [update_download_status], ?_⟩
  · simp [update_download_status, hasImageId, List.any_eq_true, beq_iff_eq]
  · intro i r r' hr hr'
    simp only [update_download_status, List.getElem?_map, hr,
      Option.map_some'] at hr'
    have hr2 : (if r.image_id == id then applyDownloadUpdate now w h fs r
        else r) = r' := by
      injection hr'
    constructor
    · intro hne
      rw [← hr2]
      simp [hne]
    · intro heq
      rw [← hr2]
      simp only [heq, beq_self_eq_true, if_true]
      cases w <;> cases h <;> cases fs <;>
        simp [applyDownloadUpdate, coalesce, heq]

/-- Claim C4, witness: with height previously 480, updating with width=100 and
absent height/filesize keeps height=480, sets width=100 and marks the row
downloaded; an unknown identity returns false. -/
theorem update_download_status_spec_witness :
    (update_download_status [recH480] ("h1") (some 100) none none 9).2 = true ∧
    (update_download_status [recH480] ("h1") (some 100) none none 9).1 =
      [recH480upd] ∧
    (update_download_status [recH480] ("zz") none none none 9).2 = false := by
  refine ⟨(update_download_status_spec [recH480] ("h1") (some 100) none none
    9).1.mpr ⟨recH480, List.mem_singleton.mpr rfl, rfl⟩, by decide, ?_⟩
  have t := (update_download_status_spec [recH480] ("zz") none none none 9).1
  cases hb : (update_download_status [recH480] ("zz") none none none 9).2
  · rfl
  · exact absurd (t.mp hb) (by decide)

/-! Sorting lemmas for the ORDER BY model. -/

theorem insertDesc_perm (r : ImageMetadata) :
    ∀ l : List ImageMetadata, (insertDesc r l).Perm (r :: l) := by
  intro l
  induction l with
  | nil => exact List.Perm.refl _
  | cons x xs ih =>
    by_cases hrx : r.searched_at ≤ x.searched_at
    · rw [show insertDesc r (x :: xs) = x :: insertDesc r xs from by
        simp [insertDesc, hrx]]
      exact (ih.cons x).trans (List.Perm.swap r x xs)
    · rw [show insertDesc r (x :: xs) = r :: x :: xs from by
        simp [insertDesc, hrx]]

theorem sortTimeDesc_perm :
    ∀ l : List ImageMetadata, (sortTimeDesc l).Perm l := by
  intro l
  induction l with
  | nil => exact List.Perm.refl _
  | cons r rs ih => exact (insertDesc_perm r (sortTimeDesc rs)).trans (ih.cons r)

theorem sortedDesc_insertDesc (r : ImageMetadata) :
    ∀ l : List ImageMetadata, sortedDesc l = true →
      sortedDesc (insertDesc r l) = true := by
  intro l
  induction l with
  | nil => intro _; rfl
  | cons x xs ih =>
    intro hs
    by_cases hrx : r.searched_at ≤ x.searched_at
    · rw [show insertDesc r (x :: xs) = x :: insertDesc r xs from by
        simp [insertDesc, hrx]]
      cases xs with
      | nil => simp [insertDesc, sortedDesc, hrx]
      | cons y ys =>
        have hxy : y.searched_at ≤ x.searched_at ∧ sortedDesc (y :: ys) = true := by
          simpa [sortedDesc] using hs
        have ih2 := ih hxy.2
        by_cases hry : r.searched_at ≤ y.searched_at
        · rw [show insertDesc r (y :: ys) = y :: insertDesc r ys from by
            simp [insertDesc, hry]] at ih2 ⊢
          simp [sortedDesc, hxy.1, ih2]
        · rw [show insertDesc r (y :: ys) = r :: y :: ys from by
            simp [insertDesc, hry]] at ih2 ⊢
          have h2 : y.searched_at ≤ r.searched_at ∧ sortedDesc (y :: ys) = true := by
            simpa [sortedDesc] using ih2
          simp [sortedDesc, hrx, h2.1, h2.2]
    · rw [show insertDesc r (x :: xs) = r :: x :: xs from by
        simp [insertDesc, hrx]]
      have hxr : x.searched_at ≤ r.searched_at := by omega
      simp [sortedDesc, hxr, hs]

theorem sortedDesc_sortTimeDesc :
    ∀ l : List ImageMetadata, sortedDesc (sortTimeDesc l) = true := by
  intro l
  induction l with
  | nil => rfl
  | cons r rs ih => exact sortedDesc_insertDesc r (sortTimeDesc rs) ih

/-- Claim C9, counterexample: with two records in the ledger, supplying
offset=1 while limit is absent makes get_all build the SQL text ... ORDER BY
searched_at DESC OFFSET ?, which SQLite rejects (OFFSET is only legal after
LIMIT), so the call raises instead of returning the remaining record; with a
limit supplied the same offset works. -/
theorem get_all_offset_without_limit_errors :
    get_all [recA, recB] none none none 1 false =
      Except.error SqlError.offsetWithoutLimit ∧
    get_all [recA, recB] none none (some 2) 1 false = Except.ok [recA] := by
  exact ⟨rfl, rfl⟩

/-- Claim C9 (amended): get_all always orders the filtered records by
searched_at, most recent first (the ordered set is a permutation of the
filtered rows), and supports pagination whenever limit is supplied: it then
returns the ordered result with the first offset records skipped and at most
limit records kept. When offset > 0 is supplied while limit is absent the
generated SQL is malformed and the call fails instead (see the
counterexample); with offset = 0 and no limit the full ordered result is
returned. -/
theorem get_all_order_pagination (rows : List ImageMetadata)
    (src : Option ImageSource) (lbl : Option ImageLabel) (pnd : Bool)
    (n off : Nat) :
    get_all rows src lbl (some n) off pnd =
      Except.ok (((orderedRows rows
        (buildGetAllQuery src lbl (some n) off pnd)).drop off).take n) ∧
    sortedDesc (orderedRows rows
      (buildGetAllQuery src lbl (some n) off pnd)) = true ∧
    (orderedRows rows (buildGetAllQuery src lbl (some n) off pnd)).Perm
      (rows.filter (rowMatches (buildGetAllQuery src lbl (some n) off pnd))) ∧
    (((orderedRows rows
      (buildGetAllQuery src lbl (some n) off pnd)).drop off).take n).length ≤ n ∧
    get_all rows src lbl none 0 pnd =
      Except.ok (orderedRows rows (buildGetAllQuery src lbl none 0 pnd)) := by
  refine ⟨?_, sortedDesc_sortTimeDesc _, sortTimeDesc_perm _, ?_, ?_⟩
  · cases off with
    | zero => simp [get_all, runSelect, buildGetAllQuery, List.drop_zero]
    | succ k => simp [get_all, runSelect, buildGetAllQuery]
  · rw [List.length_take]; exact min_le_left _ _
  · simp [get_all, runSelect, buildGetAllQuery]

/-! Download manager lemmas and claims. -/

/-- Whether a fetch attempt fully succeeded. -/
def FetchOutcome.isOk : FetchOutcome → Bool
  | .ok _ _ _ => true
  | _ => false

theorem runAttempts_all_fail (fetch : Nat → FetchOutcome) (url path : String)
    (hf : ∀ i, (fetch i).isOk = false) :
    ∀ (fuel attempt : Nat) (file : Option FileInfo),
      (runAttempts fetch url path attempt fuel file).1 = none ∧
      (runAttempts fetch url path attempt fuel file).2.1.countP
        Event.isHttpGet = fuel ∧
      (runAttempts fetch url path attempt fuel file).2.1.countP
        (fun e => e == Event.retrySleep 5) = fuel - 1 ∧
      (runAttempts fetch url path attempt fuel file).2.1.countP
        Event.isDbUpdate = 0 ∧
      (runAttempts fetch url path attempt fuel file).2.1.countP
        Event.isRateLimitSleep = 0 := by
  intro fuel
  induction fuel with
  | zero => intro attempt file; simp [runAttempts]
  | succ n ih =>
    intro attempt file
    have hcur := hf attempt
    cases hfa : fetch attempt with
    | ok w h sz =>
      rw [hfa] at hcur
      exact absurd hcur (by simp [FetchOutcome.isOk])
    | httpError =>
      have hih := ih (attempt + 1) file
      rcases Nat.eq_zero_or_pos n with hn | hn
      · subst hn
        simp [runAttempts, hfa, List.countP_append, List.countP_cons,
          Event.isHttpGet, Event.isDbUpdate, Event.isRateLimitSleep,
          hih.1, hih.2.1, hih.2.2.1, hih.2.2.2.1, hih.2.2.2.2]
      · simp [runAttempts, hfa, hn, List.countP_append, List.countP_cons,
          Event.isHttpGet, Event.isDbUpdate, Event.isRateLimitSleep,
          hih.1, hih.2.1, hih.2.2.1, hih.2.2.2.1, hih.2.2.2.2]
        omega
    | midStreamError fi =>
      have hih := ih (attempt + 1) (some fi)
      rcases Nat.eq_zero_or_pos n with hn | hn
      · subst hn
        simp [runAttempts, hfa, List.countP_append, List.countP_cons,
          Event.isHttpGet, Event.isDbUpdate, Event.isRateLimitSleep,
          hih.1, hih.2.1, hih.2.2.1, hih.2.2.2.1, hih.2.2.2.2]
      · simp [runAttempts, hfa, hn, List.countP_append, List.countP_cons,
          Event.isHttpGet, Event.isDbUpdate, Event.isRateLimitSleep,
          hih.1, hih.2.1, hih.2.2.1, hih.2.2.2.1, hih.2.2.2.2]
        omega
    | corrupt =>
      have hih := ih (attempt + 1) none
      rcases Nat.eq_zero_or_pos n with hn | hn
      · subst hn
        simp [runAttempts, hfa, List.countP_append, List.countP_cons,
          Event.isHttpGet, Event.isDbUpdate, Event.isRateLimitSleep,
          hih.1, hih.2.1, hih.2.2.1, hih.2.2.2.1, hih.2.2.2.2]
      · simp [runAttempts, hfa, hn, List.countP_append, List.countP_cons,
          Event.isHttpGet, Event.isDbUpdate, Event.isRateLimitSleep,
          hih.1, hih.2.1, hih.2.2.1, hih.2.2.2.1, hih.2.2.2.2]
        omega

theorem runAttempts_no_midstream (fetch : Nat → FetchOutcome)
    (url path : String)
    (hf : ∀ i, fetch i = FetchOutcome.httpError ∨
      fetch i = FetchOutcome.corrupt) :
    ∀ (fuel attempt : Nat),
      (runAttempts fetch url path attempt fuel none).2.2 = none := by
  intro fuel
  induction fuel with
  | zero => intro attempt; rfl
  | succ n ih =>
    intro attempt
    rcases hf attempt with hfa | hfa <;>
      simp [runAttempts, hfa, ih (attempt + 1)]

theorem updateDisk_none (disk : Disk) (path : String)
    (h : disk path = none) : updateDisk disk path none = disk := by
  funext p
  by_cases hp : (p == path) = true
  · rw [show p = path from eq_of_beq hp]
    simp [updateDisk, h]
  · simp only [Bool.not_eq_true] at hp
    simp [updateDisk, hp]

theorem processRecord_all_fail (data_dir : String) (max_retries : Nat)
    (skip : Bool) (fetch : Nat → FetchOutcome) (now : Nat)
    (rows : List ImageMetadata) (disk : Disk) (m : ImageMetadata)
    (h1 : m.is_downloaded = false)
    (h2 : disk (get_filepath data_dir m) = none)
    (h3 : ∀ i, (fetch i).isOk = false) :
    processRecord data_dir max_retries skip fetch now rows disk m =
      ⟨RecordOutcome.failed,
       (runAttempts fetch m.image_url (get_filepath data_dir m) 1 max_retries
         none).2.1,
       rows,
       updateDisk disk (get_filepath data_dir m)
         (runAttempts fetch m.image_url (get_filepath data_dir m) 1 max_retries
           none).2.2⟩ := by
  have hra := runAttempts_all_fail fetch m.image_url (get_filepath data_dir m)
    h3 max_retries 1 none
  rcases hrw : runAttempts fetch m.image_url (get_filepath data_dir m) 1
    max_retries none with ⟨res, evs, file⟩
  have hres : res = none := by
    have h0 := hra.1
    rw [hrw] at h0
    exact h0
  subst hres
  simp [processRecord, h1, h2, hrw]

theorem processRecord_file_exists (data_dir : String) (max_retries : Nat)
    (skip : Bool) (fetch : Nat → FetchOutcome) (now : Nat)
    (rows : List ImageMetadata) (disk : Disk) (m : ImageMetadata)
    (fi : FileInfo)
    (h1 : m.is_downloaded = false)
    (h2 : disk (get_filepath data_dir m) = some fi) :
    processRecord data_dir max_retries skip fetch now rows disk m =
      ⟨RecordOutcome.skipped,
       [Event.dbUpdate m.image_id (fi.decode.map Prod.fst)
         (fi.decode.map Prod.snd) (some fi.size)],
       (update_download_status rows m.image_id (fi.decode.map Prod.fst)
         (fi.decode.map Prod.snd) (some fi.size) now).1,
       disk⟩ := by
  simp [processRecord, h1, h2]

/-- An empty filesystem. -/
def diskEmpty : Disk := fun _ => none

/-- The deterministic destination path of recA under data dir d. -/
def pendPath : String := get_filepath ("d") recA

/-- The deterministic destination path of recB under data dir d. -/
def pendPathB : String := get_filepath ("d") recB

/-- A filesystem holding an undecodable 77-byte file at the path of recA. -/
def diskBad : Disk := updateDisk diskEmpty pendPath (some ⟨77, none⟩)

/-- A filesystem holding an undecodable 77-byte file at the path of recB. -/
def diskBad2 : Disk := updateDisk diskEmpty pendPathB (some ⟨77, none⟩)

/-- recA after the reconciliation path ran over the undecodable file. -/
def recADownBad : ImageMetadata :=
  { recA with
    is_downloaded := true
    downloaded_at := some 11
    filesize := some 77 }

/-- Claim C1, counterexample: the record is pending and the target file exists
on disk but does not decode as an image. On this reconciliation path the
manager still calls update_download_status (so the stored row now carries
is_downloaded = true) and leaves the undecodable file in place, contradicting
the claim that a failed decode leaves the flag false and deletes the file on
both paths. -/
theorem existsPath_marks_undecodable_file_downloaded :
    diskBad pendPath = some ⟨77, none⟩ ∧
    (processRecord ("d") 3 true (fun _ => FetchOutcome.httpError) 11 [recA]
      diskBad recA).outcome = RecordOutcome.skipped ∧
    (processRecord ("d") 3 true (fun _ => FetchOutcome.httpError) 11 [recA]
      diskBad recA).rows = [recADownBad] ∧
    (processRecord ("d") 3 true (fun _ => FetchOutcome.httpError) 11 [recA]
      diskBad recA).disk pendPath = some ⟨77, none⟩ := by
  refine ⟨rfl, rfl, by decide, rfl⟩

/-- Claim C1 (amended): on the fresh-download path the downloaded flag is set
only after a successful decode: whenever every fetch attempt fails, the record
ends failed and the ledger rows are unchanged, so the flag stays false. Files
whose decode verification fails are deleted within the attempt, so when every
failing attempt is an HTTP-level failure (nothing written) or a decode failure
(written then unlinked) the disk is also unchanged and no file remains at the
target path. A mid-stream transport/write exception, however, is caught by the
blanket except and returns failure without unlinking, so such an attempt
leaves the partially written file on disk (third part). On the
file-already-exists reconciliation path no decode gate is applied: even when
the existing file fails to decode, update_download_status still runs (setting
is_downloaded = true with absent dimensions) and the file is not deleted. -/
theorem download_decode_gate :
    (∀ (data_dir : String) (max_retries : Nat) (skip : Bool)
        (fetch : Nat → FetchOutcome) (now : Nat) (rows : List ImageMetadata)
        (disk : Disk) (m : ImageMetadata),
      m.is_downloaded = false →
      disk (get_filepath data_dir m) = none →
      (∀ i, (fetch i).isOk = false) →
      (processRecord data_dir max_retries skip fetch now rows disk m).outcome =
        RecordOutcome.failed ∧
      (processRecord data_dir max_retries skip fetch now rows disk m).rows =
        rows) ∧
    (∀ (data_dir : String) (max_retries : Nat) (skip : Bool)
        (fetch : Nat → FetchOutcome) (now : Nat) (rows : List ImageMetadata)
        (disk : Disk) (m : ImageMetadata),
      m.is_downloaded = false →
      disk (get_filepath data_dir m) = none →
      (∀ i, fetch i = FetchOutcome.httpError ∨
        fetch i = FetchOutcome.corrupt) →
      (processRecord data_dir max_retries skip fetch now rows disk m).outcome =
        RecordOutcome.failed ∧
      (processRecord data_dir max_retries skip fetch now rows disk m).rows =
        rows ∧
      (processRecord data_dir max_retries skip fetch now rows disk m).disk =
        disk) ∧
    (∀ (data_dir : String) (skip : Bool) (now : Nat)
        (rows : List ImageMetadata) (disk : Disk) (m : ImageMetadata)
        (fi : FileInfo),
      m.is_downloaded = false →
      disk (get_filepath data_dir m) = none →
      (processRecord data_dir 1 skip
        (fun _ => FetchOutcome.midStreamError fi) now rows disk m).outcome =
        RecordOutcome.failed ∧
      (processRecord data_dir 1 skip
        (fun _ => FetchOutcome.midStreamError fi) now rows disk m).rows =
        rows ∧
      (processRecord data_dir 1 skip
        (fun _ => FetchOutcome.midStreamError fi) now rows disk m).disk
        (get_filepath data_dir m) = some fi) ∧
    (∀ (data_dir : String) (max_retries : Nat) (skip : Bool)
        (fetch : Nat → FetchOutcome) (now : Nat) (rows : List ImageMetadata)
        (disk : Disk) (m : ImageMetadata) (fi : FileInfo),
      m.is_downloaded = false →
      disk (get_filepath data_dir m) = some fi →
      fi.decode = none →
      (processRecord data_dir max_retries skip fetch now rows disk m).outcome =
        RecordOutcome.skipped ∧
      (processRecord data_dir max_retries skip fetch now rows disk m).rows =
        rows.map (fun row => if row.image_id == m.image_id then
          applyDownloadUpdate now none none (some fi.size) row else row) ∧
      (processRecord data_dir max_retries skip fetch now rows disk m).disk =
        disk) := by
  refine ⟨?_, ?_, ?_, ?_⟩
  · intro data_dir max_retries skip fetch now rows disk m h1 h2 h3
    rw [processRecord_all_fail data_dir max_retries skip fetch now rows disk m
      h1 h2 h3]
    exact ⟨rfl, rfl⟩
  · intro data_dir max_retries skip fetch now rows disk m h1 h2 h3
    have h3ok : ∀ i, (fetch i).isOk = false := by
      intro i
      rcases h3 i with hfa | hfa <;> simp [hfa, FetchOutcome.isOk]
    rw [processRecord_all_fail data_dir max_retries skip fetch now rows disk m
      h1 h2 h3ok]
    refine ⟨rfl, rfl, ?_⟩
    have hmid := runAttempts_no_midstream fetch m.image_url
      (get_filepath data_dir m) h3 max_retries 1
    simp only [StepResult.disk]
    rw [hmid]
    exact updateDisk_none disk (get_filepath data_dir m) h2
  · intro data_dir skip now rows disk m fi h1 h2
    simp [processRecord, h1, h2, runAttempts, updateDisk]
  · intro data_dir max_retries skip fetch now rows disk m fi h1 h2 h3
    rw [processRecord_file_exists data_dir max_retries skip fetch now rows disk
      m fi h1 h2]
    simp [update_download_status, h3]

/-- Claim C1, witness: the four parts of the amended statement at concrete
inputs: an always-failing HTTP-level fetch with an empty disk (failed and
rows unchanged, and with no mid-stream failure also disk unchanged), a single
mid-stream failure leaving its 33-byte partial file on disk, and a pending
record with an existing undecodable 77-byte file. -/
theorem download_decode_gate_witness :
    ((processRecord ("d") 3 true (fun _ => FetchOutcome.httpError) 11 [recB]
        diskEmpty recB).outcome = RecordOutcome.failed ∧
     (processRecord ("d") 3 true (fun _ => FetchOutcome.httpError) 11 [recB]
        diskEmpty recB).rows = [recB]) ∧
    ((processRecord ("d") 3 true (fun _ => FetchOutcome.httpError) 11 [recB]
        diskEmpty recB).outcome = RecordOutcome.failed ∧
     (processRecord ("d") 3 true (fun _ => FetchOutcome.httpError) 11 [recB]
        diskEmpty recB).rows = [recB] ∧
     (processRecord ("d") 3 true (fun _ => FetchOutcome.httpError) 11 [recB]
        diskEmpty recB).disk = diskEmpty) ∧
    ((processRecord ("d") 1 true
        (fun _ => FetchOutcome.midStreamError ⟨33, none⟩) 11 [recB]
        diskEmpty recB).outcome = RecordOutcome.failed ∧
     (processRecord ("d") 1 true
        (fun _ => FetchOutcome.midStreamError ⟨33, none⟩) 11 [recB]
        diskEmpty recB).rows = [recB] ∧
     (processRecord ("d") 1 true
        (fun _ => FetchOutcome.midStreamError ⟨33, none⟩) 11 [recB]
        diskEmpty recB).disk (get_filepath ("d") recB) = some ⟨33, none⟩) ∧
    ((processRecord ("d") 3 true (fun _ => FetchOutcome.httpError) 11 [recB]
        diskBad2 recB).outcome = RecordOutcome.skipped ∧
     (processRecord ("d") 3 true (fun _ => FetchOutcome.httpError) 11 [recB]
        diskBad2 recB).rows = [recB].map (fun row =>
          if row.image_id == recB.image_id then
            applyDownloadUpdate 11 none none (some 77) row else row) ∧
     (processRecord ("d") 3 true (fun _ => FetchOutcome.httpError) 11 [recB]
        diskBad2 recB).disk = diskBad2) := by
  refine ⟨?_, ?_, ?_, ?_⟩
  · exact download_decode_gate.1 ("d") 3 true (fun _ => FetchOutcome.httpError)
      11 [recB] diskEmpty recB rfl rfl (fun i => rfl)
  · exact download_decode_gate.2.1 ("d") 3 true
      (fun _ => FetchOutcome.httpError) 11 [recB] diskEmpty recB rfl rfl
      (fun i => Or.inl rfl)
  · exact download_decode_gate.2.2.1 ("d") true 11 [recB] diskEmpty recB
      ⟨33, none⟩ rfl rfl
  · exact download_decode_gate.2.2.2 ("d") 3 true
      (fun _ => FetchOutcome.httpError) 11 [recB] diskBad2 recB ⟨77, none⟩ rfl
      rfl rfl

/-- Claim C5: a record whose fetch fails on every attempt gets exactly
max_retries HTTP attempts, with the fixed 5-second sleep between consecutive
attempts (max_retries - 1 of them), is counted as FAILED by download_batch,
and triggers no ledger update, so its rows (and downloaded flag) are exactly
as before and a future run will re-attempt it. -/
theorem retry_exhaustion_spec (data_dir : String) (max_retries : Nat)
    (skip : Bool) (fetch : Nat → FetchOutcome) (now : Nat)
    (rows : List ImageMetadata) (disk : Disk) (m : ImageMetadata)
    (isLast : Bool)
    (h1 : m.is_downloaded = false)
    (h2 : disk (get_filepath data_dir m) = none)
    (h3 : ∀ i, (fetch i).isOk = false) :
    (processWithSleep data_dir max_retries skip fetch now rows disk m
      isLast).outcome = RecordOutcome.failed ∧
    (processWithSleep data_dir max_retries skip fetch now rows disk m
      isLast).rows = rows ∧
    (processWithSleep data_dir max_retries skip fetch now rows disk m
      isLast).events.countP Event.isHttpGet = max_retries ∧
    (processWithSleep data_dir max_retries skip fetch now rows disk m
      isLast).events.countP (fun e => e == Event.retrySleep 5) =
      max_retries - 1 ∧
    (processWithSleep data_dir max_retries skip fetch now rows disk m
      isLast).events.countP Event.isDbUpdate = 0 ∧
    (download_batch data_dir max_retries skip (fun _ => fetch) now rows disk
      [m]).result = ⟨0, 1, 0⟩ := by
  have hpr := processRecord_all_fail data_dir max_retries skip fetch now rows
    disk m h1 h2 h3
  have hra := runAttempts_all_fail fetch m.image_url (get_filepath data_dir m)
    h3 max_retries 1 none
  have hb : (download_batch data_dir max_retries skip (fun _ => fetch) now rows
      disk [m]).result = ⟨0, 1, 0⟩ := by
    simp [download_batch, processWithSleep, hpr, bumpResult]
  cases isLast with
  | true =>
    have hps : processWithSleep data_dir max_retries skip fetch now rows disk m
        true = ⟨RecordOutcome.failed,
          (runAttempts fetch m.image_url (get_filepath data_dir m) 1
            max_retries none).2.1, rows,
          updateDisk disk (get_filepath data_dir m)
            (runAttempts fetch m.image_url (get_filepath data_dir m) 1
              max_retries none).2.2⟩ := by
      simp [processWithSleep, hpr]
    rw [hps]
    exact ⟨rfl, rfl, hra.2.1, hra.2.2.1, hra.2.2.2.1, hb⟩
  | false =>
    have hps : processWithSleep data_dir max_retries skip fetch now rows disk m
        false = ⟨RecordOutcome.failed,
          (runAttempts fetch m.image_url (get_filepath data_dir m) 1
            max_retries none).2.1 ++ [Event.rateLimitSleep], rows,
          updateDisk disk (get_filepath data_dir m)
            (runAttempts fetch m.image_url (get_filepath data_dir m) 1
              max_retries none).2.2⟩ := by
      simp [processWithSleep, hpr]
    rw [hps]
    refine ⟨rfl, rfl, ?_, ?_, ?_, hb⟩
    · rw [List.countP_append]
      simpa [List.countP_cons, Event.isHttpGet] using hra.2.1
    · rw [List.countP_append]
      simpa [List.countP_cons] using hra.2.2.1
    · rw [List.countP_append]
      simpa [List.countP_cons, Event.isDbUpdate] using hra.2.2.2.1

/-- Claim C5, witness: three always-failing attempts for a pending record on
an empty disk. -/
theorem retry_exhaustion_spec_witness :
    (processWithSleep ("d") 3 true (fun _ => FetchOutcome.httpError) 11 [recA]
      diskEmpty recA true).outcome = RecordOutcome.failed ∧
    (processWithSleep ("d") 3 true (fun _ => FetchOutcome.httpError) 11 [recA]
      diskEmpty recA true).rows = [recA] ∧
    (processWithSleep ("d") 3 true (fun _ => FetchOutcome.httpError) 11 [recA]
      diskEmpty recA true).events.countP Event.isHttpGet = 3 ∧
    (processWithSleep ("d") 3 true (fun _ => FetchOutcome.httpError) 11 [recA]
      diskEmpty recA true).events.countP
        (fun e => e == Event.retrySleep 5) = 2 ∧
    (processWithSleep ("d") 3 true (fun _ => FetchOutcome.httpError) 11 [recA]
      diskEmpty recA true).events.countP Event.isDbUpdate = 0 ∧
    (download_batch ("d") 3 true (fun _ _ => FetchOutcome.httpError) 11 [recA]
      diskEmpty [recA]).result = ⟨0, 1, 0⟩ := by
  exact retry_exhaustion_spec ("d") 3 true (fun _ => FetchOutcome.httpError) 11
    [recA] diskEmpty recA true rfl rfl (fun i => rfl)

/-- A filesystem holding a decodable 640x480 file of 1234 bytes at the path of
recA. -/
def diskGood : Disk := updateDisk diskEmpty pendPath (some ⟨1234, some (640, 480)⟩)

/-- Claim C8: a record (not already marked downloaded) whose target file
already exists is counted as SKIPPED, performs no HTTP request and no
inter-record rate-limit sleep regardless of its position in the batch, keeps
the disk unchanged, and reconciles the ledger via update_download_status with
the measured file size and the decoded dimensions. -/
theorem skip_existing_file_spec (data_dir : String) (max_retries : Nat)
    (skip : Bool) (fetch : Nat → FetchOutcome) (now : Nat)
    (rows : List ImageMetadata) (disk : Disk) (m : ImageMetadata)
    (isLast : Bool) (fi : FileInfo) (w h : Int)
    (h1 : m.is_downloaded = false)
    (h2 : disk (get_filepath data_dir m) = some fi)
    (h3 : fi.decode = some (w, h)) :
    (processWithSleep data_dir max_retries skip fetch now rows disk m
      isLast).outcome = RecordOutcome.skipped ∧
    (processWithSleep data_dir max_retries skip fetch now rows disk m
      isLast).events =
      [Event.dbUpdate m.image_id (some w) (some h) (some fi.size)] ∧
    (processWithSleep data_dir max_retries skip fetch now rows disk m
      isLast).events.countP Event.isHttpGet = 0 ∧
    (processWithSleep data_dir max_retries skip fetch now rows disk m
      isLast).events.countP Event.isRateLimitSleep = 0 ∧
    (processWithSleep data_dir max_retries skip fetch now rows disk m
      isLast).rows = (update_download_status rows m.image_id (some w) (some h)
        (some fi.size) now).1 ∧
    (processWithSleep data_dir max_retries skip fetch now rows disk m
      isLast).disk = disk ∧
    (download_batch data_dir max_retries skip (fun _ => fetch) now rows disk
      [m]).result = ⟨0, 0, 1⟩ := by
  have hpr := processRecord_file_exists data_dir max_retries skip fetch now
    rows disk m fi h1 h2
  rw [h3] at hpr
  simp only [Option.map_some'] at hpr
  have hps : processWithSleep data_dir max_retries skip fetch now rows disk m
      isLast = processRecord data_dir max_retries skip fetch now rows disk m := by
    simp [processWithSleep, hpr]
  rw [hps, hpr]
  refine ⟨rfl, rfl, by simp [List.countP_cons, Event.isHttpGet], by
    simp [List.countP_cons, Event.isRateLimitSleep], rfl, rfl, ?_⟩
  simp [download_batch, processWithSleep, hpr, bumpResult]

/-- Claim C8, witness: a pending record whose 1234-byte 640x480 file already
exists on disk, placed at a non-final batch position. -/
theorem skip_existing_file_spec_witness :
    (processWithSleep ("d") 3 true (fun _ => FetchOutcome.httpError) 11 [recA]
      diskGood recA false).outcome = RecordOutcome.skipped ∧
    (processWithSleep ("d") 3 true (fun _ => FetchOutcome.httpError) 11 [recA]
      diskGood recA false).events =
      [Event.dbUpdate recA.image_id (some 640) (some 480) (some 1234)] ∧
    (processWithSleep ("d") 3 true (fun _ => FetchOutcome.httpError) 11 [recA]
      diskGood recA false).events.countP Event.isHttpGet = 0 ∧
    (processWithSleep ("d") 3 true (fun _ => FetchOutcome.httpError) 11 [recA]
      diskGood recA false).events.countP Event.isRateLimitSleep = 0 ∧
    (processWithSleep ("d") 3 true (fun _ => FetchOutcome.httpError) 11 [recA]
      diskGood recA false).rows = (update_download_status [recA] recA.image_id
        (some 640) (some 480) (some 1234) 11).1 ∧
    (processWithSleep ("d") 3 true (fun _ => FetchOutcome.httpError) 11 [recA]
      diskGood recA false).disk = diskGood ∧
    (download_batch ("d") 3 true (fun _ _ => FetchOutcome.httpError) 11 [recA]
      diskGood [recA]).result = ⟨0, 0, 1⟩ := by
  exact skip_existing_file_spec ("d") 3 true (fun _ => FetchOutcome.httpError)
    11 [recA] diskGood recA false ⟨1234, some (640, 480)⟩ 640 480 rfl rfl rfl

/-- Claim C10: with limit passed as None or 0, download_pending_from_db pulls
the pending queue with the fixed default cap of 100 records (the Python
expression limit if limit else 100 treats both None and 0 as falsy) and feeds
exactly that capped list to download_batch. -/
theorem download_pending_default_cap (data_dir : String) (max_retries : Nat)
    (net : String → Nat → FetchOutcome) (now : Nat)
    (rows : List ImageMetadata) (disk : Disk) (limit : Option Nat)
    (src : Option ImageSource) (lbl : Option ImageLabel)
    (h : limit = none ∨ limit = some 0) :
    ((orderedRows rows (buildGetAllQuery src lbl (some 100) 0 true)).take
      100).length ≤ 100 ∧
    download_pending_from_db data_dir max_retries net now rows disk limit src
      lbl = Except.ok
        (if ((orderedRows rows (buildGetAllQuery src lbl (some 100) 0
            true)).take 100).isEmpty then
          ⟨[], rows, disk, ⟨0, 0, 0⟩⟩
        else download_batch data_dir max_retries true net now rows disk
          ((orderedRows rows (buildGetAllQuery src lbl (some 100) 0 true)).take
            100)) := by
  have hel : effectiveLimit limit = 100 := by
    rcases h with rfl | rfl <;> rfl
  constructor
  · rw [List.length_take]; exact min_le_left _ _
  · simp [download_pending_from_db, hel, get_pending_downloads, get_all,
      runSelect, buildGetAllQuery, Except.map]

/-- Claim C10, witness: one pending record in the ledger and limit absent. -/
theorem download_pending_default_cap_witness :
    ((orderedRows [recA] (buildGetAllQuery none none (some 100) 0 true)).take
      100).length ≤ 100 ∧
    download_pending_from_db ("d") 3 (fun _ _ => FetchOutcome.httpError) 11
      [recA] diskEmpty none none none = Except.ok
        (if ((orderedRows [recA] (buildGetAllQuery none none (some 100) 0
            true)).take 100).isEmpty then
          ⟨[], [recA], diskEmpty, ⟨0, 0, 0⟩⟩
        else download_batch ("d") 3 true (fun _ _ => FetchOutcome.httpError) 11
          [recA] diskEmpty
          ((orderedRows [recA] (buildGetAllQuery none none (some 100) 0
            true)).take 100)) := by
  exact download_pending_default_cap ("d") 3 (fun _ _ => FetchOutcome.httpError)
    11 [recA] diskEmpty none none none (Or.inl rfl)

/-! Search pagination lemmas and claims. -/

/-- The records produced by j consecutive full pages of well-formed hits
starting at page p. -/
def collectPages (f : Nat → List PixHit) (query : String) (label : ImageLabel)
    (now : Nat) : Nat → Nat → List PixMetadata
  | _, 0 => []
  | p, j + 1 => (f p).map (hitToMetadata query label now) ++
      collectPages f query label now (p + 1) j

theorem pageSeq_length : ∀ (n start : Nat), (pageSeq start n).length = n := by
  intro n
  induction n with
  | zero => intro start; rfl
  | succ k ih => intro start; simp [pageSeq, ih (start + 1)]

theorem searchGo_succ (pages : Nat → PageResult) (query : String)
    (label : ImageLabel) (now : Nat) (max_results per_page page n : Nat)
    (acc : List PixMetadata) (reqs : List Nat) :
    searchGo pages query label now max_results per_page page (n + 1) acc reqs =
      match pages page with
      | .fetchError => (reqs ++ [page], acc)
      | .payload hits =>
        let step := accumulateHits max_results query label now acc hits
        if step.2 then (reqs ++ [page], step.1)
        else if max_results ≤ step.1.length then (reqs ++ [page], step.1)
        else if hits.length < per_page then (reqs ++ [page], step.1)
        else searchGo pages query label now max_results per_page (page + 1) n
          step.1 (reqs ++ [page]) := rfl

theorem accumulateHits_le (max_results : Nat) (query : String)
    (label : ImageLabel) (now : Nat) :
    ∀ (hits : List HitParse) (acc : List PixMetadata),
      acc.length ≤ max_results →
      (accumulateHits max_results query label now acc hits).1.length ≤
        max_results := by
  intro hits
  induction hits with
  | nil => intro acc hacc; exact hacc
  | cons x rest ih =>
    intro acc hacc
    by_cases hm : max_results ≤ acc.length
    · simp only [accumulateHits, hm, if_true]
      exact hacc
    · cases x with
      | malformed =>
        simp only [accumulateHits, hm, if_false]
        exact hacc
      | ok hit =>
        simp only [accumulateHits, hm, if_false]
        refine ih _ ?_
        simp only [List.length_append, List.length_cons, List.length_nil]
        omega

theorem accumulateHits_all_ok (max_results : Nat) (query : String)
    (label : ImageLabel) (now : Nat) :
    ∀ (hs : List PixHit) (acc : List PixMetadata),
      acc.length + hs.length ≤ max_results →
      accumulateHits max_results query label now acc (hs.map HitParse.ok) =
        (acc ++ hs.map (hitToMetadata query label now), false) := by
  intro hs
  induction hs with
  | nil => intro acc hacc; simp [accumulateHits]
  | cons x rest ih =>
    intro acc hacc
    simp only [List.length_cons] at hacc
    have hm : ¬ max_results ≤ acc.length := by omega
    simp only [List.map_cons, accumulateHits, hm, if_false]
    rw [ih (acc ++ [hitToMetadata query label now x]) (by simp; omega)]
    simp [List.append_assoc]

theorem searchGo_bounds (pages : Nat → PageResult) (query : String)
    (label : ImageLabel) (now : Nat) (max_results per_page : Nat) :
    ∀ (fuel page : Nat) (acc : List PixMetadata) (reqs : List Nat),
      acc.length ≤ max_results →
      ∃ k, k ≤ fuel ∧ (1 ≤ fuel → 1 ≤ k) ∧
        (searchGo pages query label now max_results per_page page fuel acc
          reqs).1 = reqs ++ pageSeq page k ∧
        (searchGo pages query label now max_results per_page page fuel acc
          reqs).2.length ≤ max_results := by
  intro fuel
  induction fuel with
  | zero =>
    intro page acc reqs hacc
    exact ⟨0, le_refl 0, by omega, by simp [searchGo, pageSeq], hacc⟩
  | succ n ih =>
    intro page acc reqs hacc
    rw [searchGo_succ]
    cases hp : pages page with
    | fetchError =>
      exact ⟨1, by omega, fun _ => le_refl 1, by simp [pageSeq], hacc⟩
    | payload hits =>
      rcases hse : accumulateHits max_results query label now acc hits
        with ⟨acc2, ab⟩
      have hacc2 : acc2.length ≤ max_results := by
        have hle := accumulateHits_le max_results query label now hits acc hacc
        rw [hse] at hle
        exact hle
      cases ab with
      | true =>
        exact ⟨1, by omega, fun _ => le_refl 1, by simp [hse, pageSeq], by
          simp [hse]; exact hacc2⟩
      | false =>
        by_cases hmax : max_results ≤ acc2.length
        · exact ⟨1, by omega, fun _ => le_refl 1,
            by simp [hse, hmax, pageSeq], by simp [hse, hmax]; exact hacc2⟩
        · by_cases hsh : hits.length < per_page
          · exact ⟨1, by omega, fun _ => le_refl 1,
              by simp [hse, hmax, hsh, pageSeq],
              by simp [hse, hmax, hsh]; exact hacc2⟩
          · obtain ⟨k, hk, _, hreq, hlen⟩ := ih (page + 1) acc2 (reqs ++ [page])
              hacc2
            refine ⟨k + 1, by omega, fun _ => by omega, ?_, ?_⟩
            · simp only [hse, hmax, hsh, Bool.false_eq_true, if_false]
              rw [hreq]
              simp [pageSeq, List.append_assoc]
            · simp only [hse, hmax, hsh, Bool.false_eq_true, if_false]
              exact hlen

/-- Claim C6: search requests at most ceil(max_results / 200) pages,
consecutively from page 1, returns at most max_results records (accumulation
stops mid-page at the cap), and requests at least one page whenever
max_results is positive — so for max_results = 50 it issues exactly one page
request and returns at most 50 records however many hits the page holds. -/
theorem search_pagination_bounds (pages : Nat → PageResult) (query : String)
    (label : ImageLabel) (now : Nat) (max_results : Nat) :
    (search pages query label now max_results).1 =
      pageSeq 1 (search pages query label now max_results).1.length ∧
    (search pages query label now max_results).1.length ≤
      (max_results + 199) / 200 ∧
    (1 ≤ max_results →
      1 ≤ (search pages query label now max_results).1.length) ∧
    (search pages query label now max_results).2.length ≤ max_results := by
  obtain ⟨k, hk, hk1, hreq, hlen⟩ := searchGo_bounds pages query label now
    max_results 200 ((max_results + 200 - 1) / 200) 1 [] [] (by simp)
  have hs : search pages query label now max_results =
      searchGo pages query label now max_results 200 1
        ((max_results + 200 - 1) / 200) [] [] := rfl
  rw [hs, hreq]
  simp only [List.nil_append]
  refine ⟨by rw [pageSeq_length], ?_, ?_, hlen⟩
  · rw [pageSeq_length]
    omega
  · intro hpos
    rw [pageSeq_length]
    exact hk1 (by omega)

/-- A well-formed concrete hit. -/
def hitW : PixHit :=
  { id := 7
    largeImageURL := ("hw")
    imageWidth := some 800
    imageHeight := some 600
    imageSize := some 5000 }

/-- A source whose every page holds three well-formed hits. -/
def pagesW : Nat → PageResult :=
  fun _ => PageResult.payload (List.replicate 3 (HitParse.ok hitW))

/-- Claim C6, witness: a concrete source with max_results 50. -/
theorem search_pagination_bounds_witness :
    (search pagesW ("q") ImageLabel.ELECTRIC 0 50).1 =
      pageSeq 1 (search pagesW ("q") ImageLabel.ELECTRIC 0 50).1.length ∧
    (search pagesW ("q") ImageLabel.ELECTRIC 0 50).1.length ≤ (50 + 199) / 200 ∧
    (1 ≤ 50 → 1 ≤ (search pagesW ("q") ImageLabel.ELECTRIC 0 50).1.length) ∧
    (search pagesW ("q") ImageLabel.ELECTRIC 0 50).2.length ≤ 50 := by
  exact search_pagination_bounds pagesW ("q") ImageLabel.ELECTRIC 0 50

theorem searchGo_truncated (pages : Nat → PageResult) (f : Nat → List PixHit)
    (query : String) (label : ImageLabel) (now : Nat)
    (max_results per_page : Nat) :
    ∀ (j page fuel : Nat) (acc : List PixMetadata) (reqs : List Nat),
      (∀ p, page ≤ p → p < page + j →
        pages p = PageResult.payload ((f p).map HitParse.ok) ∧
        (f p).length = per_page) →
      pages (page + j) = PageResult.fetchError →
      acc.length + j * per_page < max_results →
      j < fuel →
      searchGo pages query label now max_results per_page page fuel acc reqs =
        (reqs ++ pageSeq page (j + 1),
         acc ++ collectPages f query label now page j) := by
  intro j
  induction j with
  | zero =>
    intro page fuel acc reqs hgood hfail hroom hfuel
    obtain ⟨n, rfl⟩ : ∃ n, fuel = n + 1 := ⟨fuel - 1, by omega⟩
    rw [Nat.add_zero] at hfail
    rw [searchGo_succ, hfail]
    simp [pageSeq, collectPages]
  | succ j ih =>
    intro page fuel acc reqs hgood hfail hroom hfuel
    obtain ⟨n, rfl⟩ : ∃ n, fuel = n + 1 := ⟨fuel - 1, by omega⟩
    have hpg := hgood page (le_refl page) (by omega)
    rw [Nat.succ_mul] at hroom
    have hfact1 : acc.length + per_page + j * per_page < max_results := by
      omega
    have hroom2 : acc.length + (f page).length ≤ max_results := by
      rw [hpg.2]
      omega
    have hacc_all := accumulateHits_all_ok max_results query label now (f page)
      acc hroom2
    rw [searchGo_succ, hpg.1]
    simp only [hacc_all]
    have hlen2 : (acc ++ (f page).map (hitToMetadata query label now)).length =
        acc.length + per_page := by
      simp [hpg.2]
    have hc2 : ¬ max_results ≤
        (acc ++ (f page).map (hitToMetadata query label now)).length := by
      rw [hlen2]
      omega
    have hc3 : ¬ ((f page).map HitParse.ok).length < per_page := by
      simp [hpg.2]
    simp only [hc2, hc3, if_false]
    rw [ih (page + 1) n (acc ++ (f page).map (hitToMetadata query label now))
      (reqs ++ [page])
      (by
        intro p h1 h2
        exact hgood p (by omega) (by omega))
      (by
        rw [show page + 1 + j = page + (j + 1) from by omega]
        exact hfail)
      (by rw [hlen2]; exact hfact1)
      (by omega)]
    simp [pageSeq, collectPages, List.append_assoc]

/-- Claim C7: if the request for page k of a query fails (network error,
non-2xx status, malformed payload) after k-1 full well-formed pages that have
not yet reached max_results, search stops pagination there and still returns
the records accumulated from the earlier pages; no exception reaches the
caller (search always returns its accumulated list). -/
theorem search_partial_success (pages : Nat → PageResult)
    (f : Nat → List PixHit) (query : String) (label : ImageLabel) (now : Nat)
    (max_results k : Nat)
    (hk : 1 ≤ k)
    (hgood : ∀ p, 1 ≤ p → p < k →
      pages p = PageResult.payload ((f p).map HitParse.ok) ∧
      (f p).length = 200)
    (hfail : pages k = PageResult.fetchError)
    (hroom : (k - 1) * 200 < max_results) :
    search pages query label now max_results =
      (pageSeq 1 k, collectPages f query label now 1 (k - 1)) := by
  have hfuel : k - 1 < (max_results + 200 - 1) / 200 := by
    omega
  have hmain := searchGo_truncated pages f query label now max_results 200 (k - 1)
    1 ((max_results + 200 - 1) / 200) [] []
    (by
      intro p h1 h2
      exact hgood p h1 (by omega))
    (by
      rw [show 1 + (k - 1) = k from by omega]
      exact hfail)
    (by simpa using hroom)
    hfuel
  rw [show search pages query label now max_results = searchGo pages query
    label now max_results 200 1 ((max_results + 200 - 1) / 200) [] [] from rfl,
    hmain]
  rw [show k - 1 + 1 = k from by omega]
  simp

/-- A source that fails on every page request. -/
def pagesF : Nat → PageResult := fun _ => PageResult.fetchError

/-- An empty hit table. -/
def fEmpty : Nat → List PixHit := fun _ => []

/-- Claim C7, witness: the very first page request fails, so search returns the
empty accumulation after exactly one request. -/
theorem search_partial_success_witness :
    search pagesF ("q") ImageLabel.ELECTRIC 0 50 =
      (pageSeq 1 1, collectPages fEmpty ("q") ImageLabel.ELECTRIC 0 1 0) := by
  exact search_partial_success pagesF fEmpty ("q") ImageLabel.ELECTRIC 0 50 1
    (le_refl 1) (fun p h1 h2 => absurd (h1.trans_lt h2) (lt_irrefl 1)) rfl
    (by omega)

end GuitarFlow
